import Mathlib

/-!
Shallow embedding of the mini-router request-dispatch core
(`router/route.go`, `router/context.go`, `router/router.go`,
`router/workerpool.go`).

The Go code keeps three pieces of state:
  * a segment trie (`node`) mapping normalized path segments and HTTP
    methods to handler chains;
  * a pooled per-request `APIContext` carrying cancellation state,
    path-parameter bindings and a key/value bag;
  * a fixed worker pool draining one bounded job queue.

Go maps are modelled as association lists with overwrite-on-insert
(`mapSet`) and first-match lookup (`lookupKey`); this matches Go map
semantics for the operations the code performs (no iteration order is
ever observed).  Handler functions are modelled as state transformers
over the context model; machine integers do not occur on any path the
claims touch.
-/

set_option autoImplicit false

namespace MiniRouter

/-! ## Go map model (association lists) -/

/-- First-match lookup, the model of a Go map read `m[k]`. -/
def lookupKey {β : Type} : List (String × β) → String → Option β
  | [], _ => none
  | (k, v) :: rest, key => if k = key then some v else lookupKey rest key

/-- Overwrite-or-append insert, the model of a Go map write `m[k] = v`. -/
def mapSet {β : Type} : List (String × β) → String → β → List (String × β)
  | [], k, v => [(k, v)]
  | (k', v') :: rest, k, v =>
      if k' = k then (k, v) :: rest else (k', v') :: mapSet rest k v

/-! ## Path splitting

`handle` and `ServeHTTP` both normalize a path with
`strings.Split(strings.Trim(path, "/"), "/")`.  We model `strings.Trim`
for the single-character cutset `"/"` and `strings.Split` for the
single-character separator `"/"` directly on character lists. -/

/-- Model of `strings.Trim(s, "/")`: strip leading and trailing slashes. -/
def trimSlashes (s : String) : String :=
  String.mk (((s.toList.dropWhile (· = '/')).reverse.dropWhile (· = '/')).reverse)

/-- Model of `strings.Split(s, "/")` for a single-character separator:
splitting the empty string yields `[""]`, matching Go. -/
def splitChars : List Char → List (List Char)
  | [] => [[]]
  | c :: rest =>
      if c = '/' then [] :: splitChars rest
      else
        match splitChars rest with
        | [] => [[c]]
        | s :: ss => (c :: s) :: ss

/-- The segment list both registration and resolution operate on:
`strings.Split(strings.Trim(path, "/"), "/")`. -/
def splitPath (s : String) : List String :=
  (splitChars (trimSlashes s).toList).map String.mk

/-! ## Route trie (`node` in `router.go`, built by `handle` in `route.go`) -/

/-- The Go `node` struct: segment literal, method → handler-chain map,
children map, parameter-capture flag and captured name.  Handler chains
are abstracted over the element type `α` (Go stores `[]HandlerFunc`). -/
inductive Node (α : Type) : Type where
  | mk (path : String) (handler : List (String × List α))
       (children : List (String × Node α)) (isParam : Bool) (paramName : String)

def Node.path {α : Type} : Node α → String
  | .mk p _ _ _ _ => p

def Node.handler {α : Type} : Node α → List (String × List α)
  | .mk _ h _ _ _ => h

def Node.children {α : Type} : Node α → List (String × Node α)
  | .mk _ _ c _ _ => c

def Node.isParam {α : Type} : Node α → Bool
  | .mk _ _ _ b _ => b

def Node.paramName {α : Type} : Node α → String
  | .mk _ _ _ _ n => n

/-- `strings.HasPrefix(part, ":")` in `handle`: the first byte is `':'`
(`':'` is a single-byte character, so the byte test is the char test). -/
def isCapture (part : String) : Bool :=
  match part.toList with
  | [] => false
  | c :: _ => c = ':'

/-- `part[1:]` when the segment is a capture, `""` otherwise (the Go
zero value of `paramName` for non-capture nodes). -/
def captureName (part : String) : String :=
  if isCapture part then String.mk (part.toList.drop 1) else ""

/-- The key a segment is stored under: captures are renamed to the
canonical wildcard token `"*"`. -/
def segKey (part : String) : String :=
  if isCapture part then "*" else part

/-- The empty root node made by `NewRouter`:
`&node{children: make(map[string]*node)}`. -/
def emptyNode (α : Type) : Node α := .mk "" [] [] false ""

/-- The child `handle` walks into for one segment: the existing child
under the segment's key if present — reused unchanged, in particular
keeping its original `paramName` — or a freshly created node carrying
the segment's capture flag and name. -/
def hpChild {α : Type} (n : Node α) (part : String) : Node α :=
  match lookupKey n.children (segKey part) with
  | some cn => cn
  | none => Node.mk (segKey part) [] [] (isCapture part) (captureName part)

/-- The trie walk of `handle` (`route.go` lines 104-132): walk/create a
node for each segment — a `:`-prefixed segment becomes the `"*"` child
carrying the capture's name — then store the chain under `method` at the
terminal node. -/
def handleParts {α : Type} : Node α → List String → String → List α → Node α
  | .mk p h c ip pn, [], method, chain => .mk p (mapSet h method chain) c ip pn
  | .mk p h c ip pn, part :: rest, method, chain =>
      .mk p h
        (mapSet c (segKey part)
          (handleParts (hpChild (.mk p h c ip pn) part) rest method chain)) ip pn

/-- Outcome of the resolution loop plus terminal method lookup in
`ServeHTTP` (`route.go` lines 152-169). -/
inductive Resolved (α : Type) : Type where
  | notFound
  | methodNotAllowed
  | found (chain : List α) (params : List (String × String))
  deriving DecidableEq

/-- The resolution loop of `ServeHTTP`: at each level try the exact
literal child, fall back to the `"*"` child (binding the consumed
segment under the child's stored `paramName`), otherwise fail; at the
terminal node look the chain up under the request method. -/
def resolveParts {α : Type} : Node α → List String → String → List (String × String) → Resolved α
  | n, [], method, params =>
      match lookupKey n.handler method with
      | some chain => .found chain params
      | none => .methodNotAllowed
  | n, part :: rest, method, params =>
      match lookupKey n.children part with
      | some child => resolveParts child rest method params
      | none =>
        match lookupKey n.children "*" with
        | some pc => resolveParts pc rest method (mapSet params pc.paramName part)
        | none => .notFound

/-! ## Router (`router.go`), `handle` and the resolution part of
`ServeHTTP` (`route.go`) -/

/-- The `Router` fields the routing claims depend on: the shared trie
root, the middleware sequence, and the group path prefix (`prefix` in
the source; renamed here for lexical reasons only). -/
structure Router (α : Type) : Type where
  root : Node α
  middleware : List α
  pref : String

/-- `NewRouter`: empty root, no middleware, empty prefix. -/
def newRouter (α : Type) : Router α := ⟨emptyNode α, [], ""⟩

/-- The middleware flattening in `handle`:
`if len(r.middleware) > 0 { handlers = append(r.middleware, handlers...) }`. -/
def flattenChain {α : Type} (mw hs : List α) : List α :=
  if mw.isEmpty then hs else mw ++ hs

/-- The state change `handle` performs once past its panic guard:
split `r.prefix + path`, walk/create trie nodes, store the flattened
chain at the terminal node. -/
def registerRoute {α : Type} (r : Router α) (method path : String) (hs : List α) : Router α :=
  { r with root := handleParts r.root (splitPath (r.pref ++ path)) method (flattenChain r.middleware hs) }

/-- `handle` (`route.go` lines 96-133).  The `len(handlers) == 0` panic
is modelled as `none`; the guard runs before any trie mutation, so a
panicking call stores nothing. -/
def handle {α : Type} (r : Router α) (method path : String) (hs : List α) : Option (Router α) :=
  if hs.isEmpty then none else some (registerRoute r method path hs)

/-- What `ServeHTTP` does with a request, as far as routing is
concerned: either it writes a failure response (status code and message
of the `WriteFailure` call) or it submits the resolved chain together
with the collected path-parameter bindings to the worker pool. -/
inductive ServeOutcome (α : Type) : Type where
  | wroteFailure (code : Nat) (msg : String)
  | submitted (chain : List α) (params : List (String × String))
  deriving DecidableEq

/-- The routing part of `ServeHTTP` (`route.go` lines 136-176):
`http.StatusBadRequest = 400` with body message `"bad gateway"` when a
segment matches neither a literal nor the wildcard child,
`http.StatusMethodNotAllowed = 405` when the terminal node has no chain
for the request method, submission otherwise. -/
def serve {α : Type} (r : Router α) (method path : String) : ServeOutcome α :=
  match resolveParts r.root (splitPath path) method [] with
  | .notFound => .wroteFailure 400 "bad gateway"
  | .methodNotAllowed => .wroteFailure 405 "method not allowed"
  | .found chain params => .submitted chain params

/-! ## Auxiliary views of resolution used to state the claims -/

/-- The pure segment walk of the `ServeHTTP` loop, without the terminal
method lookup: returns the terminal node and the collected bindings, or
`none` when some segment matches neither a literal nor the wildcard
child. -/
def walkParts {α : Type} : Node α → List String → List (String × String) →
    Option (Node α × List (String × String))
  | n, [], params => some (n, params)
  | n, part :: rest, params =>
      match lookupKey n.children part with
      | some child => walkParts child rest params
      | none =>
        match lookupKey n.children "*" with
        | some pc => walkParts pc rest (mapSet params pc.paramName part)
        | none => none

/-- One trie level has no literal child whose key carries the capture
marker.  `handle` renames every `:`-prefixed segment to `"*"` before
storing it, so every trie it builds satisfies this at every level. -/
def noColonKeys {α : Type} (n : Node α) : Bool :=
  n.children.all (fun kc => !(isCapture kc.1))

/-- `noColonKeys` along the lookup path of a segment list. -/
def wfAlong {α : Type} : Node α → List String → Bool
  | _, [] => true
  | n, part :: rest =>
      noColonKeys n &&
        (match lookupKey n.children (segKey part) with
         | some c => wfAlong c rest
         | none => true)

/-- Along the lookup path of a pattern, every pre-existing wildcard node
stores exactly the pattern's capture name at that position.  This is the
proviso under which the claimed parameter bindings come out with the
route's own capture names: a wildcard node created by an earlier
registration keeps that earlier registration's `paramName`. -/
def namesAlong {α : Type} : Node α → List String → Bool
  | _, [] => true
  | n, part :: rest =>
      match lookupKey n.children (segKey part) with
      | some c => (!(isCapture part) || c.paramName = captureName part) && namesAlong c rest
      | none => true

/-- The bindings the claim predicts for a request that is literally the
registered pattern: each capture position binds the capture's name to
the raw segment occupying it. -/
def freshBound : List String → List (String × String) → List (String × String)
  | [], acc => acc
  | part :: rest, acc =>
      freshBound rest (if isCapture part then mapSet acc (captureName part) part else acc)

/-- The bindings the code actually produces when the pattern is resolved
right after being registered over trie `n`: capture positions bind the
`paramName` stored in the (pre-existing or freshly created) wildcard
node. -/
def boundParams {α : Type} : Node α → List String → List (String × String) → List (String × String)
  | _, [], acc => acc
  | n, part :: rest, acc =>
      match lookupKey n.children (segKey part) with
      | some c =>
          boundParams c rest (if isCapture part then mapSet acc c.paramName part else acc)
      | none =>
          freshBound rest (if isCapture part then mapSet acc (captureName part) part else acc)

/-- First registration: `GET /a/:x`, creating the wildcard node with
parameter name `"x"`. -/
def routerX : Router Nat := registerRoute (newRouter Nat) "GET" "/a/:x" [1]

/-- Second registration at the same position with a different capture
name: `GET /a/:y`.  The wildcard node keeps `"x"`. -/
def routerXY : Router Nat := registerRoute routerX "GET" "/a/:y" [2]

/-! ## Request context (`context.go`)

`APIContext` wraps a `context.Context` (modelled by `InnerCtx`: the
`WithValue` chain, whether the cancellation signal has fired, and the
optional absolute deadline), the path-parameter bindings, and the
response writer (modelled as the list of `(status, payload)` pairs
written to it).  Keys and values of the `Set`/`Value` bag are `any` in
Go; they are instantiated with `String` here, which the claims never
distinguish.  Time is modelled in abstract ticks. -/

/-- A response body: either the `Error{errors: msg}` failure payload or
serialized success data. -/
inductive Payload : Type where
  | err (msg : String)
  | data (d : String)
  deriving DecidableEq

/-- Model of the wrapped `context.Context`. -/
structure InnerCtx : Type where
  values : List (String × String)
  cancelled : Bool
  deadline : Option Nat
  deriving DecidableEq

/-- `context.Background()`: no values, not cancelled, no deadline. -/
def backgroundCtx : InnerCtx := ⟨[], false, none⟩

/-- The handler-visible state of one `APIContext`.  The `wg` completion
counter is deliberately not a field: Go handlers cannot touch it (it is
unexported), so it lives in `ReqState` below. -/
structure APICtx : Type where
  responses : List (Nat × Payload)
  pathParams : List (String × String)
  inner : InnerCtx
  deriving DecidableEq

/-- `withCancel` (`context.go` lines 180-184): replace the inner context
with a fresh cancellable child of `context.Background()`. -/
def withCancel (c : APICtx) : APICtx :=
  { c with inner := ⟨[], false, none⟩ }

/-- `setCtx` (`context.go` lines 44-56): attach the new request's
transport handles (a fresh response writer), clear the parameter map,
install a fresh `WaitGroup` (tracked in `ReqState`), and `withCancel`. -/
def setCtx (c : APICtx) : APICtx :=
  withCancel { c with pathParams := [], responses := [] }

/-- `reset` (`context.go` lines 155-163): drop the transport handles and
handlers, replace the inner context with `context.Background()` (losing
every `WithValue` entry, the deadline and the cancellation state), and
nil the parameter map. -/
def reset (c : APICtx) : APICtx :=
  { c with inner := backgroundCtx, pathParams := [] }

/-- `Set` (`context.go` lines 198-200): `ctx.ctx = context.WithValue(ctx.ctx, k, v)` —
the innermost (most recent) entry shadows older ones. -/
def setValue (c : APICtx) (k v : String) : APICtx :=
  { c with inner := { c.inner with values := (k, v) :: c.inner.values } }

/-- `Value` (`context.go` lines 194-196): search the `WithValue` chain
from the innermost entry outwards. -/
def valueOf (c : APICtx) (k : String) : Option String :=
  lookupKey c.inner.values k

/-- `WriteFailure` (`context.go` lines 113-126): write the status code,
write the marshalled `Error{errors: msg}` payload, then call
`ctx.cancel()`, firing the context's cancellation signal. -/
def writeFailure (code : Nat) (msg : String) (c : APICtx) : APICtx :=
  { c with responses := c.responses ++ [(code, Payload.err msg)],
           inner := { c.inner with cancelled := true } }

/-- `SuccessWithData` (`context.go` lines 130-141): write status 200 and
the marshalled payload; no cancellation. -/
def successWithData (d : String) (c : APICtx) : APICtx :=
  { c with responses := c.responses ++ [(200, Payload.data d)] }

/-- `WithTimeout` (`context.go` lines 173-178):
`context.WithTimeout(ctx.ctx, d)` derives from the *current* inner
context, and Go's `WithDeadline` keeps the parent deadline when it is
already earlier than the new one — so the effective absolute deadline is
the minimum of the two.  `now` is the tick at which the call happens. -/
def withTimeout (now d : Nat) (c : APICtx) : APICtx :=
  let e2 : Nat :=
    match c.inner.deadline with
    | none => now + d
    | some e => min e (now + d)
  { c with inner := { c.inner with deadline := some e2 } }

/-- Whether the cancellation signal has fired by tick `t`: either
`cancel()` was called or the deadline has passed. -/
def firedAt (c : APICtx) (t : Nat) : Bool :=
  c.inner.cancelled ||
    (match c.inner.deadline with
     | some e => decide (e ≤ t)
     | none => false)

/-- A context as `ServeHTTP` hands it to `Submit`: fresh writer, no
bindings, fresh cancellable inner context. -/
def freshCtx : APICtx := ⟨[], [], backgroundCtx⟩

/-! ## Worker pool (`workerpool.go`)

The wrapped handler built by `Submit` checks the context's `Done()`
channel before each handler.  External firings of the signal (the timer
armed by `WithTimeout`) are modelled by an oracle: `oracle i = true`
means the signal has fired by the time of check number `i`, where check
`0` is the worker's `job.Context.Err() == nil` test and check `i + 1`
is the `select` before handler `i + 1` of the chain.  A handler that
calls `WriteFailure` sets `cancelled` in the state itself, which every
later check also observes. -/

def CountOfWorkers : Nat := 1000

def SizeOfQueue : Nat := 5000

/-- The loop body of the wrapped handler in `Submit`
(`workerpool.go`): before each handler, if the cancellation signal has
fired, log, `WriteFailure(http.StatusGatewayTimeout = 504, "request
timeout")` and return; otherwise run the handler.  Returns the final
state and the number of handlers actually invoked. -/
def runChainAux (oracle : Nat → Bool) : Nat → List (APICtx → APICtx) → APICtx → APICtx × Nat
  | _, [], c => (c, 0)
  | i, h :: rest, c =>
      if c.inner.cancelled || oracle i then
        (writeFailure 504 "request timeout" c, 0)
      else
        let r := runChainAux oracle (i + 1) rest (h c)
        (r.1, r.2 + 1)

/-- Outcome of one worker processing one job. -/
structure JobResult : Type where
  state : APICtx
  handlersRun : Nat
  doneSignalled : Bool
  deriving DecidableEq

/-- A worker picking the job off the queue (`startWorker`): it first
tests `job.Context.Err() == nil`; if the signal has already fired it
skips the job entirely — the wrapped handler, and with it the deferred
`wg.Done()`, never runs.  Otherwise it runs the wrapped handler, whose
deferred `wg.Done()` always fires when the chain returns. -/
def workerRunJob (oracle : Nat → Bool) (hs : List (APICtx → APICtx)) (c : APICtx) : JobResult :=
  if c.inner.cancelled || oracle 0 then ⟨c, 0, false⟩
  else
    let r := runChainAux oracle 1 hs c
    ⟨r.1, r.2, true⟩

/-- One request's context together with its `WaitGroup` completion
counter (`ctx.wg`), which Go handlers cannot reach. -/
structure ReqState : Type where
  ctx : APICtx
  counter : Nat

/-- The first statement of `Submit`: `ctx.wg.Add(1)`, executed before
the job is placed on the queue. -/
def submitPhase1 (rs : ReqState) : ReqState :=
  { rs with counter := rs.counter + 1 }

/-- The state after a worker has processed the request's job: the
counter is decremented by the deferred `wg.Done()` exactly when the
wrapped handler ran. -/
def afterJob (oracle : Nat → Bool) (hs : List (APICtx → APICtx)) (rs : ReqState) :
    ReqState × JobResult :=
  let J := workerRunJob oracle hs rs.ctx
  ({ ctx := J.state, counter := if J.doneSignalled then rs.counter - 1 else rs.counter }, J)

/-- The deferred block of `ServeHTTP`: `ctx.wait()` blocks until the
counter reaches zero, then `ctx.reset()` and `r.pool.Put(ctx)`.  `none`
models the dispatcher still blocked in `wait`. -/
def dispatcherRelease (rs : ReqState) : Option APICtx :=
  if rs.counter = 0 then some (reset rs.ctx) else none

/-! ## Job queue (`workerpool.go`): one bounded channel

`wp.jobs` is a buffered channel of capacity `queueSize`.  A send
completes immediately when the buffer has room and otherwise blocks the
sender; a receive takes the oldest buffered job.  `wouldBlock` models
the sending goroutine suspended — it still holds the job, so no job is
dropped or rejected. -/

inductive SendResult (J : Type) : Type where
  | sent (queue : List J)
  | wouldBlock
  deriving DecidableEq

/-- One attempt of the channel send `wp.jobs <- job`. -/
def channelSend {J : Type} (cap : Nat) (q : List J) (j : J) : SendResult J :=
  if q.length < cap then .sent (q ++ [j]) else .wouldBlock

/-- The channel receive in a worker's `for job := range wp.jobs`. -/
def channelRecv {J : Type} (q : List J) : Option (J × List J) :=
  match q with
  | [] => none
  | j :: rest => some (j, rest)

/-! ## Claim C2 -/

/-- A context whose cancellation signal has already fired when the
worker takes the job off the queue (check `0`). -/
def cancelledCtx : APICtx := ⟨[], [], ⟨[], true, none⟩⟩

/-! ## Theorems -/

theorem lookupKey_mapSet_self {β : Type} (l : List (String × β)) (k : String) (v : β) :
    lookupKey (mapSet l k v) k = some v := by
  induction l with
  | nil => simp [mapSet, lookupKey]
  | cons hd tl ih =>
      obtain ⟨k', v'⟩ := hd
      by_cases h : k' = k
      · simp [mapSet, h, lookupKey]
      · simp [mapSet, h, lookupKey, ih]

theorem lookupKey_mapSet_ne {β : Type} (l : List (String × β)) (k k' : String) (v : β)
    (h : k' ≠ k) : lookupKey (mapSet l k v) k' = lookupKey l k' := by
  have h2 : k ≠ k' := Ne.symm h
  induction l with
  | nil => simp [mapSet, lookupKey, h2]
  | cons hd tl ih =>
      obtain ⟨k0, v0⟩ := hd
      by_cases h0 : k0 = k
      · subst h0
        simp [mapSet, lookupKey, h2]
      · simp [mapSet, h0, lookupKey, ih]

theorem flattenChain_eq_append {α : Type} (mw hs : List α) :
    flattenChain mw hs = mw ++ hs := by
  cases mw <;> simp [flattenChain]

theorem resolveParts_eq_walkParts {α : Type} (n : Node α) (ps : List String)
    (method : String) (params : List (String × String)) :
    resolveParts n ps method params =
      match walkParts n ps params with
      | none => .notFound
      | some (t, prm) =>
          match lookupKey t.handler method with
          | some chain => .found chain prm
          | none => .methodNotAllowed := by
  induction ps generalizing n params with
  | nil => simp [resolveParts, walkParts]
  | cons part rest ih =>
      simp only [resolveParts, walkParts]
      cases h1 : lookupKey n.children part with
      | some child => simp [ih]
      | none =>
          cases h2 : lookupKey n.children "*" with
          | some pc => simp [ih]
          | none => simp

/-! ## Registration/resolution round trip (claim C1) -/

theorem paramName_handleParts {α : Type} (n : Node α) (ps : List String)
    (m : String) (ch : List α) :
    (handleParts n ps m ch).paramName = n.paramName := by
  cases n with
  | mk p h c ip pn => cases ps <;> simp [handleParts, Node.paramName]

theorem isCapture_ne_star {p : String} (h : isCapture p = true) : p ≠ "*" := by
  intro heq
  rw [heq] at h
  exact absurd h (by decide)

theorem lookupKey_none_of_all_not_capture {β : Type} (l : List (String × β)) (s : String)
    (hall : l.all (fun kc => !(isCapture kc.1)) = true) (hs : isCapture s = true) :
    lookupKey l s = none := by
  induction l with
  | nil => rfl
  | cons hd tl ih =>
      obtain ⟨k, v⟩ := hd
      simp only [List.all_cons, Bool.and_eq_true, Bool.not_eq_true'] at hall
      have hk : ¬k = s := by
        intro heq
        have hfalse := hall.1
        rw [heq, hs] at hfalse
        simp at hfalse
      simp [lookupKey, hk, ih hall.2]

theorem wfAlong_of_empty_children {α : Type} (key pn : String) (b : Bool)
    (rest : List String) : wfAlong (@Node.mk α key [] [] b pn) rest = true := by
  cases rest with
  | nil => rfl
  | cons p ps => simp [wfAlong, noColonKeys, Node.children, lookupKey]

theorem boundParams_of_empty_children {α : Type} (key pn : String) (b : Bool)
    (rest : List String) (acc : List (String × String)) :
    boundParams (@Node.mk α key [] [] b pn) rest acc = freshBound rest acc := by
  cases rest with
  | nil => rfl
  | cons p ps => simp [boundParams, freshBound, Node.children, lookupKey]

/-- Registering a pattern and then resolving exactly that pattern finds
the registered chain, with the bindings predicted by `boundParams` —
provided no pre-existing literal child carries a `:`-prefixed key along
the path (`wfAlong`), which holds for every trie `handle` builds. -/
theorem resolve_after_handleParts {α : Type} (ps : List String) (n : Node α) (m : String)
    (ch : List α) (acc : List (String × String)) (hwf : wfAlong n ps = true) :
    resolveParts (handleParts n ps m ch) ps m acc = .found ch (boundParams n ps acc) := by
  induction ps generalizing n acc with
  | nil =>
      cases n with
      | mk p h c ip pn =>
          simp [handleParts, resolveParts, boundParams, Node.handler, lookupKey_mapSet_self]
  | cons part rest ih =>
      cases n with
      | mk p h c ip pn =>
          simp only [wfAlong, Node.children, Bool.and_eq_true] at hwf
          by_cases hcap : isCapture part = true
          · -- capture segment: stored under "*", raw lookup of the segment fails
            have hkey : segKey part = "*" := by simp [segKey, hcap]
            rw [hkey] at hwf
            have hraw : lookupKey c part = none :=
              lookupKey_none_of_all_not_capture c part hwf.1 hcap
            cases hc : lookupKey c "*" with
            | some c0 =>
                rw [hc] at hwf
                have hch : hpChild (Node.mk p h c ip pn) part = c0 := by
                  simp [hpChild, Node.children, hkey, hc]
                simp only [handleParts, hch, hkey, hc, resolveParts, Node.children,
                  lookupKey_mapSet_ne c "*" part _ (isCapture_ne_star hcap), hraw,
                  lookupKey_mapSet_self, paramName_handleParts,
                  boundParams, hcap, if_true]
                exact ih c0 _ hwf.2
            | none =>
                rw [hc] at hwf
                have hch : hpChild (Node.mk p h c ip pn) part =
                    Node.mk "*" [] [] true (captureName part) := by
                  simp [hpChild, Node.children, hkey, hc, hcap]
                simp only [handleParts, hch, hkey, hc, resolveParts, Node.children,
                  lookupKey_mapSet_ne c "*" part _ (isCapture_ne_star hcap), hraw,
                  lookupKey_mapSet_self, paramName_handleParts,
                  boundParams, hcap, if_true]
                rw [ih _ _ (wfAlong_of_empty_children _ _ _ _),
                  boundParams_of_empty_children]
                simp [Node.paramName]
          · -- literal segment: stored and looked up under the raw key
            have hkey : segKey part = part := by simp [segKey, hcap]
            rw [hkey] at hwf
            cases hc : lookupKey c part with
            | some c0 =>
                rw [hc] at hwf
                have hch : hpChild (Node.mk p h c ip pn) part = c0 := by
                  simp [hpChild, Node.children, hkey, hc]
                simp only [handleParts, hch, hkey, hc, resolveParts, Node.children,
                  lookupKey_mapSet_self, boundParams, hcap, if_false]
                exact ih c0 _ hwf.2
            | none =>
                rw [hc] at hwf
                have hch : hpChild (Node.mk p h c ip pn) part =
                    Node.mk part [] [] (isCapture part) (captureName part) := by
                  simp [hpChild, Node.children, hkey, hc]
                simp only [handleParts, hch, hkey, hc, resolveParts, Node.children,
                  lookupKey_mapSet_self, boundParams, hcap, if_false]
                rw [ih _ _ (wfAlong_of_empty_children _ _ _ _),
                  boundParams_of_empty_children]
                simp

/-- Under the name-consistency proviso the code's bindings coincide with
the claim's bindings. -/
theorem boundParams_eq_freshBound {α : Type} (ps : List String) (n : Node α)
    (acc : List (String × String)) (hnames : namesAlong n ps = true) :
    boundParams n ps acc = freshBound ps acc := by
  induction ps generalizing n acc with
  | nil => rfl
  | cons part rest ih =>
      simp only [namesAlong] at hnames
      cases hc : lookupKey n.children (segKey part) with
      | some c0 =>
          rw [hc] at hnames
          simp only [Bool.and_eq_true, Bool.or_eq_true, Bool.not_eq_true',
            decide_eq_true_eq] at hnames
          simp only [boundParams, hc, freshBound]
          by_cases hcap : isCapture part = true
          · have hname : c0.paramName = captureName part := by
              rcases hnames.1 with h | h
              · rw [hcap] at h; exact absurd h (by decide)
              · exact h
            rw [hcap, hname]
            simp only [if_true]
            exact ih c0 _ hnames.2
          · simp only [Bool.not_eq_true] at hcap
            simp only [hcap, Bool.false_eq_true, if_false]
            exact ih c0 _ hnames.2
      | none =>
          have hb : boundParams n (part :: rest) acc =
              freshBound rest (if isCapture part then mapSet acc (captureName part) part else acc) := by
            conv_lhs => rw [boundParams.eq_def]
            simp only [hc]
          rw [hb]
          rfl

/-! ## Accessor lemmas and the literal-only round trip -/

theorem handler_handleParts_nil {α : Type} (n : Node α) (m : String) (ch : List α) :
    (handleParts n [] m ch).handler = mapSet n.handler m ch := by
  cases n with
  | mk p h c ip pn => rfl

theorem children_handleParts_cons {α : Type} (n : Node α) (part : String)
    (rest : List String) (m : String) (ch : List α) :
    (handleParts n (part :: rest) m ch).children =
      mapSet n.children (segKey part) (handleParts (hpChild n part) rest m ch) := by
  cases n with
  | mk p h c ip pn => rfl

theorem hpChild_of_lookup {α : Type} (n : Node α) (part : String) (c : Node α)
    (h : lookupKey n.children (segKey part) = some c) : hpChild n part = c := by
  simp [hpChild, h]

/-- Registering an all-literal pattern and resolving exactly it finds
the registered chain with no bindings, over any starting trie. -/
theorem resolve_after_handleParts_literal {α : Type} (ps : List String) (n : Node α)
    (m : String) (ch : List α) (acc : List (String × String))
    (hlit : ∀ q ∈ ps, isCapture q = false) :
    resolveParts (handleParts n ps m ch) ps m acc = .found ch acc := by
  induction ps generalizing n acc with
  | nil =>
      cases n with
      | mk p h c ip pn =>
          simp [handleParts, resolveParts, Node.handler, lookupKey_mapSet_self]
  | cons part rest ih =>
      have hcap : isCapture part = false := hlit part (by simp)
      have hkey : segKey part = part := by simp [segKey, hcap]
      cases n with
      | mk p h c ip pn =>
          simp only [handleParts, hkey, resolveParts, Node.children, lookupKey_mapSet_self]
          exact ih _ _ (fun q hq => hlit q (by simp [hq]))

theorem serve_submitted_of_resolve {α : Type} (r : Router α) (m p : String)
    (ch : List α) (prm : List (String × String))
    (h : resolveParts r.root (splitPath p) m [] = .found ch prm) :
    serve r m p = .submitted ch prm := by
  simp [serve, h]

theorem root_registerRoute {α : Type} (r : Router α) (m p : String) (hs : List α) :
    (registerRoute r m p hs).root =
      handleParts r.root (splitPath (r.pref ++ p)) m (flattenChain r.middleware hs) := rfl

/-! ## Claim C1 -/

/-- C1 (amended): for every route registered via `handle` with method
`m` and path `p` over a prefix-free router, resolving a request with
exactly method `m` and path `p` finds the same flattened handler chain,
and — provided every wildcard node already present along `p`'s trie path
stores the same parameter name as `p`'s capture at that position — the
bindings map each capture name to the literal segment occupying the
capture's position.  (Without the proviso the chain is still found, but
a pre-existing wildcard node keeps the parameter name of the first
registration that created it, so the binding appears under that earlier
name; see the counterexample.) -/
theorem C1_register_resolve_roundtrip {α : Type} (r : Router α) (m p : String) (hs : List α)
    (hpref : r.pref = "") (hwf : wfAlong r.root (splitPath p) = true)
    (hnames : namesAlong r.root (splitPath p) = true) (hne : hs ≠ []) :
    handle r m p hs = some (registerRoute r m p hs) ∧
      serve (registerRoute r m p hs) m p =
        .submitted (flattenChain r.middleware hs) (freshBound (splitPath p) []) := by
  constructor
  · cases hs with
    | nil => exact absurd rfl hne
    | cons a t => rfl
  · apply serve_submitted_of_resolve
    rw [root_registerRoute, hpref]
    have hsplit : splitPath ("" ++ p) = splitPath p := by
      have : ("" ++ p : String) = p := by simp
      rw [this]
    rw [hsplit, resolve_after_handleParts _ _ _ _ _ hwf,
      boundParams_eq_freshBound _ _ _ hnames]

/-- Witness for C1: registering `GET /echo/:word` on a fresh router and
resolving exactly `GET /echo/:word` submits chain `[7]` with the segment
bound under `"word"`. -/
theorem C1_register_resolve_roundtrip_witness :
    handle (newRouter Nat) "GET" "/echo/:word" [7]
        = some (registerRoute (newRouter Nat) "GET" "/echo/:word" [7]) ∧
      serve (registerRoute (newRouter Nat) "GET" "/echo/:word" [7]) "GET" "/echo/:word"
        = .submitted [7] [("word", ":word")] := by
  have h := C1_register_resolve_roundtrip (newRouter Nat) "GET" "/echo/:word" [7]
    rfl (by decide) (by decide) (by decide)
  refine ⟨h.1, ?_⟩
  rw [h.2]
  decide

/-- C1 counterexample: after registering `GET /a/:x` and then
`GET /a/:y`, resolving exactly `GET /a/:y` finds the second chain but
binds the capture segment under `"x"`, the first registration's name;
`"y"`, the resolved route's own capture name, is unbound — contradicting
the claim that the bindings map each capture name of the registered
route to the segment occupying its position. -/
theorem C1_counterexample :
    handle (newRouter Nat) "GET" "/a/:x" [1] = some routerX ∧
      handle routerX "GET" "/a/:y" [2] = some routerXY ∧
      serve routerXY "GET" "/a/:y" = .submitted [2] [("x", ":y")] ∧
      lookupKey [("x", ":y")] "y" = none := by
  exact ⟨rfl, rfl, by decide, by decide⟩

/-! ## Claim C4 -/

/-- C4: an exact literal child match is taken in preference to the
wildcard child.  With `GET /users/:id` and `GET /users/me` both
registered — in either order, over any prefix-free router — resolving
`GET /users/me` submits the `me` chain and binds no parameter. -/
theorem C4_literal_beats_wildcard {α : Type} (r : Router α) (h1 h2 : List α)
    (hpref : r.pref = "") (h1ne : h1 ≠ []) (h2ne : h2 ≠ []) :
    (handle (registerRoute r "GET" "/users/:id" h1) "GET" "/users/me" h2
        = some (registerRoute (registerRoute r "GET" "/users/:id" h1) "GET" "/users/me" h2) ∧
      serve (registerRoute (registerRoute r "GET" "/users/:id" h1) "GET" "/users/me" h2)
          "GET" "/users/me"
        = .submitted (flattenChain r.middleware h2) []) ∧
    (handle (registerRoute r "GET" "/users/me" h2) "GET" "/users/:id" h1
        = some (registerRoute (registerRoute r "GET" "/users/me" h2) "GET" "/users/:id" h1) ∧
      serve (registerRoute (registerRoute r "GET" "/users/me" h2) "GET" "/users/:id" h1)
          "GET" "/users/me"
        = .submitted (flattenChain r.middleware h2) []) := by
  constructor
  · refine ⟨?_, ?_⟩
    · cases h2 with
      | nil => exact absurd rfl h2ne
      | cons a t => rfl
    · apply serve_submitted_of_resolve
      rw [root_registerRoute,
        show (registerRoute r "GET" "/users/:id" h1).pref = "" from hpref,
        show splitPath ("" ++ "/users/me") = ["users", "me"] from by decide,
        show splitPath "/users/me" = ["users", "me"] from by decide]
      exact resolve_after_handleParts_literal _ _ _ _ _ (by decide)
  · refine ⟨?_, ?_⟩
    · cases h1 with
      | nil => exact absurd rfl h1ne
      | cons a t => rfl
    · apply serve_submitted_of_resolve
      rw [root_registerRoute,
        show (registerRoute r "GET" "/users/me" h2).pref = "" from hpref,
        show splitPath ("" ++ "/users/:id") = ["users", ":id"] from by decide,
        show splitPath "/users/me" = ["users", "me"] from by decide,
        root_registerRoute, hpref,
        show splitPath ("" ++ "/users/me") = ["users", "me"] from by decide]
      have hku : segKey "users" = "users" := by decide
      have hkme : segKey "me" = "me" := by decide
      have hkid : segKey ":id" = "*" := by decide
      have hneStar : ∀ (l : List (String × Node α)) (v : Node α),
          lookupKey (mapSet l "*" v) "me" = lookupKey l "me" :=
        fun l v => lookupKey_mapSet_ne l "*" "me" v (by decide)
      have hpcN1 : hpChild (handleParts r.root ["users", "me"] "GET"
            (flattenChain r.middleware h2)) "users"
          = handleParts (hpChild r.root "users") ["me"] "GET"
              (flattenChain r.middleware h2) := by
        apply hpChild_of_lookup
        rw [hku, children_handleParts_cons, hku, lookupKey_mapSet_self]
      simp only [resolveParts, children_handleParts_cons, handler_handleParts_nil,
        hku, hkme, hkid, hpcN1, hneStar, lookupKey_mapSet_self]

/-- Witness for C4: the concrete scenario of the claim on a fresh
router with singleton chains. -/
theorem C4_literal_beats_wildcard_witness :
    serve (registerRoute (registerRoute (newRouter Nat) "GET" "/users/:id" [1])
        "GET" "/users/me" [2]) "GET" "/users/me" = .submitted [2] [] ∧
      serve (registerRoute (registerRoute (newRouter Nat) "GET" "/users/me" [2])
        "GET" "/users/:id" [1]) "GET" "/users/me" = .submitted [2] [] := by
  have h := C4_literal_beats_wildcard (newRouter Nat) [1] [2] rfl (by decide) (by decide)
  exact ⟨h.1.2, h.2.2⟩

/-! ## Claim C5 -/

/-- C5: resolution has exactly two failure kinds and they are never
confused.  The dispatcher writes the 400 "bad gateway" (not-found)
response exactly when some segment matches neither a literal nor the
wildcard child (the walk fails); it writes the 405 "method not allowed"
response exactly when every segment resolves but the terminal node has
no chain under the request method; and it submits a chain exactly when
the walk succeeds and the method is present — in which case neither
failure is produced. -/
theorem C5_failure_kinds {α : Type} (r : Router α) (m p : String) :
    (serve r m p = .wroteFailure 400 "bad gateway"
        ↔ walkParts r.root (splitPath p) [] = none) ∧
    (serve r m p = .wroteFailure 405 "method not allowed"
        ↔ ∃ t prm, walkParts r.root (splitPath p) [] = some (t, prm)
            ∧ lookupKey (Node.handler t) m = none) ∧
    (∀ ch prm, serve r m p = .submitted ch prm
        ↔ ∃ t, walkParts r.root (splitPath p) [] = some (t, prm)
            ∧ lookupKey (Node.handler t) m = some ch) := by
  have hs : serve r m p = (match resolveParts r.root (splitPath p) m [] with
      | .notFound => ServeOutcome.wroteFailure 400 "bad gateway"
      | .methodNotAllowed => ServeOutcome.wroteFailure 405 "method not allowed"
      | .found chain params => ServeOutcome.submitted chain params) := rfl
  rw [hs, resolveParts_eq_walkParts]
  cases hw : walkParts r.root (splitPath p) [] with
  | none => simp
  | some tp =>
      obtain ⟨t, prm⟩ := tp
      have hred0 : (match (some (t, prm) : Option (Node α × List (String × String))) with
          | none => Resolved.notFound
          | some (t2, prm2) =>
            match lookupKey t2.handler m with
            | some chain => Resolved.found chain prm2
            | none => Resolved.methodNotAllowed)
          = (match lookupKey t.handler m with
            | some chain => Resolved.found chain prm
            | none => (Resolved.methodNotAllowed : Resolved α)) := rfl
      rw [hred0]
      cases hl : lookupKey (Node.handler t) m with
      | none =>
          refine ⟨by simp, ?_, ?_⟩
          · constructor
            · intro _
              exact ⟨t, prm, rfl, hl⟩
            · intro _
              rfl
          · intro ch prm2
            constructor
            · intro hcontra
              simp at hcontra
            · rintro ⟨t0, heq, hl0⟩
              injection heq with heq2
              injection heq2 with e1 e2
              subst e1
              subst e2
              rw [hl] at hl0
              cases hl0
      | some ch0 =>
          refine ⟨by simp, ?_, ?_⟩
          · constructor
            · intro hcontra
              simp at hcontra
            · rintro ⟨t0, prm0, heq, hl0⟩
              injection heq with heq2
              injection heq2 with e1 e2
              subst e1
              subst e2
              rw [hl] at hl0
              cases hl0
          · intro ch prm2
            constructor
            · intro hsub
              have hred : (match (match (some ch0 : Option (List α)) with
                  | some chain => Resolved.found chain prm
                  | none => Resolved.methodNotAllowed : Resolved α) with
                  | .notFound => ServeOutcome.wroteFailure 400 "bad gateway"
                  | .methodNotAllowed => ServeOutcome.wroteFailure 405 "method not allowed"
                  | .found chain params => ServeOutcome.submitted chain params)
                  = ServeOutcome.submitted ch0 prm := rfl
              rw [hred] at hsub
              injection hsub with e1 e2
              subst e1
              subst e2
              exact ⟨t, rfl, hl⟩
            · rintro ⟨t0, heq, hl0⟩
              injection heq with heq2
              injection heq2 with e1 e2
              subst e1
              subst e2
              rw [hl] at hl0
              injection hl0 with e
              subst e
              rfl

/-! ## Claim C10 -/

/-- C10: registering a route with an empty handler sequence is fatal:
`handle` panics (modelled as `none`) exactly when the handler list is
empty, before any trie mutation, so no route is stored; with at least
one handler it never panics for this reason and stores the route. -/
theorem C10_zero_handlers_fatal {α : Type} (r : Router α) (m p : String) (hs : List α) :
    (handle r m p hs = none ↔ hs = []) ∧
      (hs ≠ [] → handle r m p hs = some (registerRoute r m p hs)) := by
  cases hs with
  | nil => simp [handle]
  | cons a t => simp [handle]

/-- Witness for C10: a zero-handler registration panics, a one-handler
registration succeeds. -/
theorem C10_zero_handlers_fatal_witness :
    handle (newRouter Nat) "GET" "/a" [] = none ∧
      handle (newRouter Nat) "GET" "/a" [5]
        = some (registerRoute (newRouter Nat) "GET" "/a" [5]) := by
  exact ⟨(C10_zero_handlers_fatal (newRouter Nat) "GET" "/a" ([] : List Nat)).1.mpr rfl,
    (C10_zero_handlers_fatal (newRouter Nat) "GET" "/a" [5]).2 (by decide)⟩

/-! ## Chain-execution lemmas -/

/-- Once the cancellation flag is set in the state, the runner invokes
no handler at all (for an empty chain it also writes nothing). -/
theorem runChainAux_cancelled (oracle : Nat → Bool) (i : Nat)
    (hs : List (APICtx → APICtx)) (c : APICtx) (hc : c.inner.cancelled = true) :
    (runChainAux oracle i hs c).2 = 0 := by
  cases hs with
  | nil => rfl
  | cons h rest => simp [runChainAux, hc]

/-- A chain of handlers none of which fires the cancellation signal
runs to completion when nothing external fires it either. -/
theorem runChainAux_all_run (hs : List (APICtx → APICtx)) (i : Nat) (c : APICtx)
    (hnc : c.inner.cancelled = false)
    (hpure : ∀ h, h ∈ hs → ∀ t, (h t).inner.cancelled = t.inner.cancelled) :
    (runChainAux (fun _ => false) i hs c).2 = hs.length := by
  induction hs generalizing i c with
  | nil => rfl
  | cons h rest ih =>
      have hc2 : (h c).inner.cancelled = false := by
        rw [hpure h (by simp) c, hnc]
      simp [runChainAux, hnc]
      rw [ih (i + 1) (h c) hc2 (fun h2 hm t => hpure h2 (by simp [hm]) t)]

/-! ## Claim C6 -/

/-- C6: `WriteFailure(code, msg)` writes exactly one response carrying
`code` and the `errors: msg` payload and fires the context's
cancellation signal, so no later handler of the same chain runs (the
runner stops at the next boundary check); `SuccessWithData` writes
status 200 with the payload and does not cancel, so the remaining
handlers still run. -/
theorem C6_writeFailure_stops_success_does_not (code : Nat) (msg d : String)
    (hs : List (APICtx → APICtx)) (c : APICtx)
    (hnc : c.inner.cancelled = false)
    (hpure : ∀ h, h ∈ hs → ∀ t, (h t).inner.cancelled = t.inner.cancelled) :
    ((writeFailure code msg c).responses = c.responses ++ [(code, Payload.err msg)] ∧
      (writeFailure code msg c).inner.cancelled = true) ∧
    (runChainAux (fun _ => false) 1 (writeFailure code msg :: hs) c).2 = 1 ∧
    ((successWithData d c).responses = c.responses ++ [(200, Payload.data d)] ∧
      (successWithData d c).inner.cancelled = c.inner.cancelled) ∧
    (runChainAux (fun _ => false) 1 (successWithData d :: hs) c).2 = 1 + hs.length := by
  refine ⟨⟨rfl, rfl⟩, ?_, ⟨rfl, rfl⟩, ?_⟩
  · simp [runChainAux, hnc,
      runChainAux_cancelled (fun _ => false) 2 hs (writeFailure code msg c) rfl]
  · simp [runChainAux, hnc,
      runChainAux_all_run hs 2 (successWithData d c)
        (show (successWithData d c).inner.cancelled = false from hnc) hpure,
      Nat.add_comm]

/-- Witness for C6: a failing first handler runs alone; a succeeding
first handler lets the second handler run as well. -/
theorem C6_writeFailure_stops_success_does_not_witness :
    (runChainAux (fun _ => false) 1 [writeFailure 500 "boom", successWithData "tail"] freshCtx).2 = 1 ∧
      (runChainAux (fun _ => false) 1 [successWithData "ok", successWithData "tail"] freshCtx).2 = 2 := by
  have h := C6_writeFailure_stops_success_does_not 500 "boom" "ok"
    [successWithData "tail"] freshCtx rfl
    (by
      intro h2 hm t
      simp at hm
      subst hm
      rfl)
  exact ⟨h.2.1, h.2.2.2⟩

/-- C2 counterexample: when the cancellation signal has fired before the
worker dequeues the job, the worker's `job.Context.Err() == nil` test
fails and it skips the job entirely — zero handlers run, but *no*
gateway-timeout response is written (and `wg.Done()` is never called),
contradicting the claim that exactly one 504 response is written. -/
theorem C2_counterexample :
    (workerRunJob (fun _ => false) [successWithData "alive"] cancelledCtx).handlersRun = 0 ∧
      (workerRunJob (fun _ => false) [successWithData "alive"] cancelledCtx).state.responses = [] ∧
      ¬((workerRunJob (fun _ => false) [successWithData "alive"] cancelledCtx).state.responses
          = [(504, Payload.err "request timeout")]) ∧
      (workerRunJob (fun _ => false) [successWithData "alive"] cancelledCtx).doneSignalled = false := by
  exact ⟨rfl, rfl, by decide, rfl⟩

/-- C2 (amended): a job whose context's cancellation signal fires after
the worker has taken it up but before the first handler's boundary check
executes zero handlers, writes exactly one gateway-timeout (504)
response, and still signals completion; a job whose signal had already
fired when the worker dequeued it is skipped outright — zero handlers,
no response at all, and no completion signal. -/
theorem C2_cancel_before_chain (oracle : Nat → Bool) (hs : List (APICtx → APICtx)) (c : APICtx) :
    (c.inner.cancelled = false → oracle 0 = false → oracle 1 = true → hs ≠ [] →
      (workerRunJob oracle hs c).handlersRun = 0 ∧
        (workerRunJob oracle hs c).state.responses
          = c.responses ++ [(504, Payload.err "request timeout")] ∧
        (workerRunJob oracle hs c).doneSignalled = true) ∧
    ((c.inner.cancelled || oracle 0) = true →
      workerRunJob oracle hs c = ⟨c, 0, false⟩) := by
  constructor
  · intro hnc h0 h1 hne
    cases hs with
    | nil => exact absurd rfl hne
    | cons h rest =>
        simp [workerRunJob, runChainAux, hnc, h0, h1, writeFailure]
  · intro hfired
    simp [workerRunJob, hfired]

/-- Witness for C2 (amended): both windows at concrete inputs. -/
theorem C2_cancel_before_chain_witness :
    ((workerRunJob (fun i => decide (1 ≤ i)) [successWithData "alive"] freshCtx).handlersRun = 0 ∧
      (workerRunJob (fun i => decide (1 ≤ i)) [successWithData "alive"] freshCtx).state.responses
        = [] ++ [(504, Payload.err "request timeout")] ∧
      (workerRunJob (fun i => decide (1 ≤ i)) [successWithData "alive"] freshCtx).doneSignalled = true) ∧
      workerRunJob (fun _ => false) [successWithData "alive"] cancelledCtx = ⟨cancelledCtx, 0, false⟩ := by
  exact ⟨(C2_cancel_before_chain (fun i => decide (1 ≤ i)) [successWithData "alive"] freshCtx).1
      rfl rfl rfl (by simp),
    (C2_cancel_before_chain (fun _ => false) [successWithData "alive"] cancelledCtx).2 rfl⟩

/-! ## Claim C3 -/

/-- C3: `Submit` increments the completion counter before enqueueing;
the deferred `wg.Done()` decrements it when the wrapped chain finishes,
whether it ran normally or was stopped early by cancellation; and the
dispatcher releases the context — reset — back to the pool exactly when
the counter has returned to zero, i.e. exactly when the job signalled
completion, so a context is never returned to the pool while its job is
outstanding. -/
theorem C3_completion_counter (oracle : Nat → Bool) (hs : List (APICtx → APICtx))
    (rs : ReqState) (h0 : rs.counter = 0) :
    (submitPhase1 rs).counter = rs.counter + 1 ∧
    ((afterJob oracle hs (submitPhase1 rs)).2.doneSignalled = true →
        (afterJob oracle hs (submitPhase1 rs)).1.counter = rs.counter) ∧
    ((afterJob oracle hs (submitPhase1 rs)).2.doneSignalled = false →
        (afterJob oracle hs (submitPhase1 rs)).1.counter = rs.counter + 1) ∧
    (dispatcherRelease (afterJob oracle hs (submitPhase1 rs)).1
        = if (afterJob oracle hs (submitPhase1 rs)).2.doneSignalled
          then some (reset (afterJob oracle hs (submitPhase1 rs)).2.state)
          else none) := by
  cases hd : (workerRunJob oracle hs rs.ctx).doneSignalled with
  | true =>
      refine ⟨rfl, fun _ => ?_, fun hcontra => ?_, ?_⟩
      · simp [afterJob, submitPhase1, hd, h0]
      · simp [afterJob, submitPhase1, hd] at hcontra
      · simp [afterJob, submitPhase1, dispatcherRelease, hd, h0]
  | false =>
      refine ⟨rfl, fun hcontra => ?_, fun _ => ?_, ?_⟩
      · simp [afterJob, submitPhase1, hd] at hcontra
      · simp [afterJob, submitPhase1, hd]
      · simp [afterJob, submitPhase1, dispatcherRelease, hd, h0]

/-- Witness for C3: a normally-completing job brings the counter back to
zero and the dispatcher releases the reset context. -/
theorem C3_completion_counter_witness :
    (submitPhase1 ⟨freshCtx, 0⟩).counter = 1 ∧
      dispatcherRelease (afterJob (fun _ => false) [successWithData "ok"]
          (submitPhase1 ⟨freshCtx, 0⟩)).1
        = some (reset (afterJob (fun _ => false) [successWithData "ok"]
            (submitPhase1 ⟨freshCtx, 0⟩)).2.state) := by
  have h := C3_completion_counter (fun _ => false) [successWithData "ok"] ⟨freshCtx, 0⟩ rfl
  refine ⟨h.1, ?_⟩
  rw [h.2.2.2]
  rfl

/-! ## Claim C7 -/

/-- C7: a context that is reset after completing a request and then
re-acquired for a new one exposes none of the prior request's data:
every key written via `Set` reads back as nothing, the path-parameter
bindings are empty, and the cancellation state is fresh with no
deadline. -/
theorem C7_reset_clears_everything (c : APICtx) (k : String) :
    valueOf (setCtx (reset c)) k = none ∧
      (setCtx (reset c)).pathParams = [] ∧
      (setCtx (reset c)).inner.deadline = none ∧
      (setCtx (reset c)).inner.cancelled = false := by
  exact ⟨rfl, rfl, rfl, rfl⟩

/-! ## Claim C8 -/

/-- C8 counterexample: arming `WithTimeout(1)` and then re-arming with
`WithTimeout(5)` (both at tick 0) leaves the effective deadline at
tick 1 — the signal has fired at tick 1, although tick 1 is earlier
than the second deadline 0 + 5, contradicting the claim that the second
duration is the only meaningful deadline regardless of whether the
first was earlier. -/
theorem C8_counterexample :
    (withTimeout 0 5 (withTimeout 0 1 freshCtx)).inner.deadline = some 1 ∧
      firedAt (withTimeout 0 5 (withTimeout 0 1 freshCtx)) 1 = true ∧
      (1 : Nat) < 0 + 5 := by
  exact ⟨rfl, rfl, by decide⟩

/-- C8 (amended): on a context with no deadline, `WithTimeout(d)` at
tick `t1` makes the signal fire exactly once `t1 + d` has passed;
re-arming with `WithTimeout(d2)` at tick `t2` only tightens the
deadline: the signal fires exactly once `min (t1 + d1) (t2 + d2)` has
passed, so a later second deadline does not discard an earlier first
one. -/
theorem C8_withTimeout_rearm_min (c : APICtx) (t1 d1 t2 d2 t : Nat)
    (hdl : c.inner.deadline = none) (hnc : c.inner.cancelled = false) :
    ((withTimeout t1 d1 c).inner.deadline = some (t1 + d1) ∧
      firedAt (withTimeout t1 d1 c) t = decide (t1 + d1 ≤ t)) ∧
    ((withTimeout t2 d2 (withTimeout t1 d1 c)).inner.deadline
        = some (min (t1 + d1) (t2 + d2)) ∧
      firedAt (withTimeout t2 d2 (withTimeout t1 d1 c)) t
        = decide (min (t1 + d1) (t2 + d2) ≤ t)) := by
  simp [withTimeout, firedAt, hdl, hnc]

/-- Witness for C8 (amended): the concrete re-arming of the
counterexample, through the theorem. -/
theorem C8_withTimeout_rearm_min_witness :
    (withTimeout 0 5 (withTimeout 0 1 freshCtx)).inner.deadline = some (min (0 + 1) (0 + 5)) ∧
      firedAt (withTimeout 0 5 (withTimeout 0 1 freshCtx)) 1 = decide (min (0 + 1) (0 + 5) ≤ 1) := by
  exact (C8_withTimeout_rearm_min freshCtx 0 1 0 5 1 rfl rfl).2

/-! ## Claim C9 -/

/-- C9: a send on the full job queue blocks the submitting thread
(`wouldBlock`: the sender suspends, still holding the job) instead of
dropping or rejecting it; a send on a non-full queue enqueues the job at
the back; these are the only two outcomes; and once a worker takes a job
off a full queue, the freed slot lets the blocked send complete with the
job preserved. -/
theorem C9_submit_backpressure {J : Type} (q : List J) (j : J) :
    (q.length < SizeOfQueue → channelSend SizeOfQueue q j = .sent (q ++ [j])) ∧
    (q.length = SizeOfQueue → channelSend SizeOfQueue q j = .wouldBlock) ∧
    (channelSend SizeOfQueue q j = .wouldBlock ∨
      channelSend SizeOfQueue q j = .sent (q ++ [j])) ∧
    (∀ x q2, q.length = SizeOfQueue → channelRecv q = some (x, q2) →
      channelSend SizeOfQueue q2 j = .sent (q2 ++ [j])) := by
  refine ⟨?_, ?_, ?_, ?_⟩
  · intro hlt
    simp [channelSend, hlt]
  · intro heq
    simp [channelSend, heq]
  · by_cases hlt : q.length < SizeOfQueue
    · exact Or.inr (by simp [channelSend, hlt])
    · exact Or.inl (by simp [channelSend, hlt])
  · intro x q2 heq hrecv
    cases q with
    | nil => cases hrecv
    | cons a rest =>
        injection hrecv with h2
        injection h2 with e1 e2
        subst e2
        have hlen : rest.length < SizeOfQueue := by
          simp [List.length_cons] at heq
          omega
        simp [channelSend, hlen]

/-- Witness for C9: a full queue of 5000 jobs blocks the next send; one
receive frees a slot and the send completes. -/
theorem C9_submit_backpressure_witness :
    channelSend SizeOfQueue (List.replicate SizeOfQueue (0 : Nat)) 7 = .wouldBlock ∧
      channelSend SizeOfQueue (List.replicate 4999 (0 : Nat)) 7
        = .sent (List.replicate 4999 (0 : Nat) ++ [7]) := by
  have hlen : (List.replicate SizeOfQueue (0 : Nat)).length = SizeOfQueue :=
    List.length_replicate SizeOfQueue 0
  have h := C9_submit_backpressure (List.replicate SizeOfQueue (0 : Nat)) 7
  refine ⟨h.2.1 hlen, ?_⟩
  have hrecv : channelRecv (List.replicate SizeOfQueue (0 : Nat))
      = some (0, List.replicate 4999 (0 : Nat)) := by
    rw [show SizeOfQueue = 4999 + 1 from rfl, List.replicate_succ]
    rfl
  exact h.2.2.2 0 (List.replicate 4999 0) hlen hrecv

end MiniRouter
